import Mathlib

/-!
# SnapAgent — verification of the natural-language specification

Shallow embedding of the core components of the SnapAgent backend
(`backend/app/...`) and proofs of the specification's testable claims.

Conventions:
* Python strings are modelled as `List Char` where character-level
  manipulation matters (chunker, input guard) and as `String` elsewhere.
* Python floats used for scores are modelled as `ℚ`.
* Fallible calls (database access, network) are modelled as `Except` /
  `Option` valued oracles; a Python `while` loop whose progress is by
  an index is modelled with an explicit fuel argument that is
  instantiated large enough to reproduce the loop exactly.
-/

namespace SnapAgent

/-! ## TextChunker — `backend/app/rag/chunking.py`

`chunk` / `_recursive_split` / `_split_by_length`, embedded over
`List Char`.  `splitOnF` models Python `str.split(sep)` for a nonempty
separator (left-to-right, non-overlapping, keeps empty pieces);
`stripChars` models `str.strip()` for ASCII whitespace. -/

abbrev Str := List Char

/-- Python `s.strip()`: drop leading and trailing whitespace. -/
def stripChars (l : Str) : Str :=
  ((l.dropWhile Char.isWhitespace).reverse.dropWhile Char.isWhitespace).reverse

/-- Fueled worker for `splitOnF`: `acc` is the current piece reversed.
With `fuel ≥` length of the remaining text this computes Python
`str.split` exactly. -/
def splitOnAuxF (needle : Str) : Nat → Str → Str → List Str
  | 0, rest, acc => [acc.reverse ++ rest]
  | _ + 1, [], acc => [acc.reverse]
  | fuel + 1, c :: rest, acc =>
    if needle.isPrefixOf (c :: rest) then
      acc.reverse :: splitOnAuxF needle fuel (List.drop (needle.length - 1) rest) []
    else
      splitOnAuxF needle fuel rest (c :: acc)

/-- Python `text.split(sep)` for a nonempty separator `sep`. -/
def splitOnF (sep text : Str) : List Str :=
  splitOnAuxF sep (text.length + 1) text []

/-- `TextChunker._split_by_length`: slice off `chunkSize` characters,
then restart `chunkSize - overlap` further on (the Python loop
`start = end - overlap if overlap else end`).  `fuel ≥ text.length`
suffices whenever `overlap < chunkSize` (the only case in which the
Python loop terminates). -/
def splitByLength (chunkSize overlap : Nat) : Nat → Str → List Str
  | 0, _ => []
  | _ + 1, [] => []
  | fuel + 1, l => l.take chunkSize :: splitByLength chunkSize overlap fuel (l.drop (chunkSize - overlap))

/-- The trailing-`overlap` seed of the next buffer:
Python `current_chunk[-overlap:] if overlap else ""`. -/
def overlapTail (overlap : Nat) (l : Str) : Str :=
  if overlap = 0 then [] else l.drop (l.length - overlap)

/-- Inner `for part in parts` loop of `TextChunker._recursive_split`,
parameterised by the splitter used for an oversized part (`deeper`,
which is the recursion into the remaining separators or the final
hard split).  State: chunks emitted so far and the current buffer. -/
def recursiveSplitGo (chunkSize overlap : Nat) (sep : Str) (deeper : Str → List Str) :
    List Str → List Str → Str → List Str
  | [], chunks, current =>
    if current = [] then chunks else chunks ++ [current]
  | part :: parts, chunks, current =>
    if chunkSize < current.length + part.length + sep.length then
      if current = [] then
        recursiveSplitGo chunkSize overlap sep deeper parts (chunks ++ deeper part) []
      else
        recursiveSplitGo chunkSize overlap sep deeper parts (chunks ++ [current])
          (overlapTail overlap current ++ part)
    else
      recursiveSplitGo chunkSize overlap sep deeper parts chunks
        (if current = [] then part else current ++ sep ++ part)

/-- `TextChunker._recursive_split`. -/
def recursiveSplit (chunkSize overlap : Nat) : List Str → Str → List Str
  | [], text => splitByLength chunkSize overlap (text.length + 1) text
  | sep :: restSeps, text =>
    let deeper : Str → List Str :=
      match restSeps with
      | [] => fun part => splitByLength chunkSize overlap (part.length + 1) part
      | s :: ss => fun part => recursiveSplit chunkSize overlap (s :: ss) part
    recursiveSplitGo chunkSize overlap sep deeper (splitOnF sep text) [] []

/-- Default separator hierarchy of `TextChunker`. -/
def defaultSeparators : List Str :=
  [['\n', '\n'], ['\n'], ['.', ' '], [' ']]

/-- `TextChunker.chunk`: empty/whitespace-only input gives `[]`;
otherwise the recursive split, then `enumerate` + keep the chunks that
survive stripping, each paired with its `enumerate` position. -/
def chunk (chunkSize overlap : Nat) (seps : List Str) (text : Str) : List (Str × Nat) :=
  if stripChars text = [] then []
  else
    (recursiveSplit chunkSize overlap seps text).enum.filterMap
      (fun p => if stripChars p.2 = [] then none else some (stripChars p.2, p.1))

/-! ### Chunker lemmas -/

/-- Indices produced by `enumFrom n` + keep-if survive as a strictly
increasing sequence bounded below by `n`. -/
theorem pairwise_lt_filterMap_enumFrom (P : Str → Bool) (g : Str → Str) :
    ∀ (n : Nat) (l : List Str),
      (((List.enumFrom n l).filterMap
          (fun p => if P p.2 then some (g p.2, p.1) else none)).map Prod.snd).Pairwise (· < ·) ∧
      ∀ i ∈ ((List.enumFrom n l).filterMap
          (fun p => if P p.2 then some (g p.2, p.1) else none)).map Prod.snd, n ≤ i := by
  intro n l
  induction l generalizing n with
  | nil => simp
  | cons c l ih =>
    obtain ⟨ih1, ih2⟩ := ih (n + 1)
    by_cases h : P c
    · refine ⟨?_, ?_⟩
      · simp only [List.enumFrom, List.filterMap_cons, h, if_pos, List.map_cons]
        exact List.Pairwise.cons (fun i hi => Nat.lt_of_succ_le (ih2 i hi)) ih1
      · simp only [List.enumFrom, List.filterMap_cons, h, if_pos, List.map_cons]
        intro i hi
        rcases List.mem_cons.mp hi with rfl | hi
        · omega
        · exact Nat.le_of_succ_le (ih2 i hi)
    · refine ⟨?_, ?_⟩
      · simpa only [List.enumFrom, List.filterMap_cons, h, if_neg, Bool.false_eq_true,
          not_false_iff, if_false] using ih1
      · simp only [List.enumFrom, List.filterMap_cons, h, Bool.false_eq_true, if_false]
        intro i hi
        exact Nat.le_of_succ_le (ih2 i hi)

/-- When every element survives the filter, the kept indices are
exactly `n, n+1, ..., n + length - 1`. -/
theorem filterMap_enumFrom_all_kept (P : Str → Bool) (g : Str → Str) :
    ∀ (n : Nat) (l : List Str), (∀ c ∈ l, P c = true) →
      ((List.enumFrom n l).filterMap
          (fun p => if P p.2 then some (g p.2, p.1) else none)).map Prod.snd =
        List.range' n l.length := by
  intro n l
  induction l generalizing n with
  | nil => simp
  | cons c l ih =>
    intro h
    have hc : P c = true := h c (List.mem_cons_self c l)
    simp only [List.enumFrom, List.filterMap_cons, hc, if_pos, List.map_cons, List.length_cons,
      List.range'_succ]
    exact congrArg (n :: ·) (ih (n + 1) (fun x hx => h x (List.mem_cons_of_mem c hx)))

/-- C4 (amended): the surviving chunks keep their position in the
pre-filter chunk list, so their indices are strictly increasing but not
necessarily contiguous; they are `0, 1, ..., k-1` exactly when no chunk
of the recursive split strips to the empty string. -/
theorem chunk_indices_strictly_increasing (chunkSize overlap : Nat) (seps : List Str) (text : Str) :
    ((chunk chunkSize overlap seps text).map Prod.snd).Pairwise (· < ·) ∧
    (stripChars text ≠ [] →
      (∀ c ∈ recursiveSplit chunkSize overlap seps text, stripChars c ≠ []) →
      (chunk chunkSize overlap seps text).map Prod.snd =
        List.range (recursiveSplit chunkSize overlap seps text).length) := by
  constructor
  · unfold chunk
    by_cases h : stripChars text = []
    · simp [h]
    · simp only [h, if_neg, if_false]
      have := (pairwise_lt_filterMap_enumFrom (fun c => decide (¬ stripChars c = []))
        stripChars 0 (recursiveSplit chunkSize overlap seps text)).1
      simpa [List.enum, apply_ite, decide_eq_true_eq, ite_not] using this
  · intro htext hall
    unfold chunk
    simp only [htext, if_neg, if_false]
    have := filterMap_enumFrom_all_kept (fun c => decide (¬ stripChars c = []))
      stripChars 0 (recursiveSplit chunkSize overlap seps text)
      (by intro c hc; simpa using hall c hc)
    simpa [List.enum, List.range_eq_range', apply_ite, decide_eq_true_eq, ite_not] using this

/-- C4 witness: a concrete run in which every split chunk survives
stripping, so the indices are contiguous from 0. -/
theorem chunk_indices_strictly_increasing_witness :
    stripChars ("ab cd".data) ≠ [] ∧
    (∀ c ∈ recursiveSplit 3 0 defaultSeparators ("ab cd".data), stripChars c ≠ []) ∧
    (chunk 3 0 defaultSeparators ("ab cd".data)).map Prod.snd =
      List.range (recursiveSplit 3 0 defaultSeparators ("ab cd".data)).length :=
  ⟨by decide, by decide,
    (chunk_indices_strictly_increasing 3 0 defaultSeparators ("ab cd".data)).2
      (by decide) (by decide)⟩

/-- C4 counterexample: for `chunk_size = 3`, `overlap = 0` and input
`"ab\n\n  \n\nc"`, the middle chunk `"  "` strips to empty and is
discarded, and the surviving chunks carry indices `[0, 2]` — a gap, so
they are not re-indexed contiguously from 0. -/
theorem chunk_indices_gap_counterexample :
    (chunk 3 0 defaultSeparators ("ab\n\n  \n\nc".data)).map Prod.snd = [0, 2] ∧
    (chunk 3 0 defaultSeparators ("ab\n\n  \n\nc".data)).map Prod.snd ≠
      List.range (chunk 3 0 defaultSeparators ("ab\n\n  \n\nc".data)).length := by
  decide

/-- C8 (amended): every chunk produced by the final hard-split tier
`_split_by_length` has at most `chunk_size` characters (for any fuel,
i.e. any number of executed loop iterations). -/
theorem splitByLength_le_chunkSize (chunkSize overlap : Nat) :
    ∀ (fuel : Nat) (text c : Str), c ∈ splitByLength chunkSize overlap fuel text →
      c.length ≤ chunkSize := by
  intro fuel
  induction fuel with
  | zero => intro text c hc; simp [splitByLength] at hc
  | succ fuel ih =>
    intro text c hc
    cases text with
    | nil => simp [splitByLength] at hc
    | cons x xs =>
      simp only [splitByLength] at hc
      rcases List.mem_cons.mp hc with rfl | hc
      · exact List.length_take_le chunkSize (x :: xs)
      · exact ih _ c hc

/-- C8 witness: a concrete hard-split chunk obeying the bound. -/
theorem splitByLength_le_chunkSize_witness :
    ("abcde".data.take 3) ∈ splitByLength 3 1 6 ("abcde".data) ∧
    ("abcde".data.take 3).length ≤ 3 :=
  ⟨by decide, splitByLength_le_chunkSize 3 1 6 ("abcde".data) _ (by decide)⟩

/-- C8 counterexample: with `chunk_size = 5`, `overlap = 2` and input
`"ab cccccccccc dd"`, the chunk `"abcccccccccc"` has 12 characters,
exceeding `chunk_size + overlap = 7`: when a piece longer than
`chunk_size` follows accumulated content at the same separator tier,
the buffer `overlap-tail ++ piece` is emitted without further
splitting. -/
theorem chunk_size_bound_counterexample :
    ¬ (∀ p ∈ chunk 5 2 defaultSeparators ("ab cccccccccc dd".data), p.1.length ≤ 5 + 2) := by
  decide

/-! ## Shared string helpers

Executable models of the Python string operations the components use:
substring membership (`kw in s`), `str.lower()`, `str.split()` with no
argument, and the `{n:,}` thousands-separator format. -/

/-- `needle` occurs somewhere in `hay` (Python `needle in hay`). -/
def containsSub (needle : Str) : Str → Bool
  | [] => needle.isPrefixOf []
  | c :: rest => needle.isPrefixOf (c :: rest) || containsSub needle rest

/-- Number of positions of `hay` at which `needle` occurs. -/
def countSubstr (needle : Str) : Str → Nat
  | [] => 0
  | c :: rest => (if needle.isPrefixOf (c :: rest) then 1 else 0) + countSubstr needle rest

/-- Python `needle in hay` on `String`s. -/
def strContains (hay needle : String) : Bool := containsSub needle.data hay.data

/-- Python `s.lower()` (ASCII case folding; non-ASCII unchanged). -/
def lowerStr (s : String) : String := String.mk (s.data.map Char.toLower)

/-- Worker for `pySplitWs`; `acc` is the current word reversed. -/
def splitWsAux : Str → Str → List Str
  | [], acc => if acc = [] then [] else [acc.reverse]
  | c :: cs, acc =>
    if c.isWhitespace then
      if acc = [] then splitWsAux cs [] else acc.reverse :: splitWsAux cs []
    else splitWsAux cs (c :: acc)

/-- Python `s.split()` with no argument: split on whitespace runs,
dropping empty pieces. -/
def pySplitWs (s : String) : List String := (splitWsAux s.data []).map String.mk

/-- Group the reversed decimal digits in threes, inserting `','`. -/
def groupThreesRev : Str → Str
  | a :: b :: c :: d :: rest => a :: b :: c :: ',' :: groupThreesRev (d :: rest)
  | l => l

/-- Python `f"{n:,}"`: decimal digits with thousands separators. -/
def commaFormat (n : Nat) : String :=
  String.mk (groupThreesRev (toString n).data.reverse).reverse

/-! ## IntentClassifier — `backend/app/agent/intent_classifier.py` -/

/-- `IntentResult` dataclass. -/
structure IntentResult where
  intent_type : String
  confidence : ℚ
  reasoning : String
  deriving Repr, DecidableEq

def RAG_KEYWORDS : List String :=
  ["문서", "파일", "업로드", "자료", "내용", "찾아", "검색",
   "document", "file", "uploaded", "content", "search", "find",
   "according to", "based on", "in the"]

def WEB_KEYWORDS : List String :=
  ["최신", "뉴스", "현재", "오늘", "날씨", "실시간",
   "latest", "news", "current", "today", "weather", "real-time",
   "what is", "who is", "how to"]

def ACADEMIC_KEYWORDS : List String :=
  ["논문", "연구", "학술", "arxiv", "paper", "research",
   "journal", "학회", "학자", "인용"]

def CODE_KEYWORDS : List String :=
  ["코드", "프로그래밍", "계산", "수식", "파이썬", "python",
   "calculate", "compute", "code", "실행", "연산"]

def SCRAPER_KEYWORDS : List String :=
  ["페이지", "사이트", "URL", "링크", "스크래핑",
   "추출", "scrape", "crawl", "크롤링"]

/-- `sum(1 for kw in kws if kw in hay)`. -/
def countMatches (kws : List String) (hay : String) : Nat :=
  (kws.filter (fun kw => strContains hay kw)).length

/-- `PURPOSE_WEIGHTS[task_purpose]` as `(rag bonus, web bonus)`. -/
def purposeWeights (taskPurpose : String) : Nat × Nat :=
  if taskPurpose = "research" then (0, 2)
  else if taskPurpose = "monitoring" then (0, 2)
  else if taskPurpose = "qa" then (2, 0)
  else if taskPurpose = "summary" then (2, 0)
  else (0, 0)

/-- The `(rag_score, web_score)` pair computed by
`IntentClassifier.classify` just before the decision chain.
`previousTools` is `[r.get("tool_type") for r in previous_results]`
and `prefs` the `task_purpose` preference (if a preferences dict was
passed). -/
def classifyScores (query : String) (previousTools : List String)
    (prefs : Option String) : Nat × Nat :=
  let ql := lowerStr query
  let rag0 := countMatches RAG_KEYWORDS ql
  let web0 := countMatches WEB_KEYWORDS ql + countMatches ACADEMIC_KEYWORDS ql
      + countMatches SCRAPER_KEYWORDS ql
  let ragP := match prefs with | none => 0 | some tp => (purposeWeights tp).1
  let webP := match prefs with | none => 0 | some tp => (purposeWeights tp).2
  let rag1 := rag0 + ragP
  let web1 := web0 + webP
  if previousTools ≠ [] then
    if previousTools.contains "rag" ∧ ¬ previousTools.contains "web_search" then
      (rag1, web1 + 2)
    else if previousTools.contains "web_search" ∧ ¬ previousTools.contains "rag" then
      (rag1 + 2, web1)
    else (rag1, web1)
  else (rag1, web1)

/-- `IntentClassifier.classify`. -/
def classify (query : String) (previousTools : List String)
    (prefs : Option String) : IntentResult :=
  let s := classifyScores query previousTools prefs
  let codeScore := countMatches CODE_KEYWORDS (lowerStr query)
  if 0 < s.1 ∧ 0 < s.2 then
    { intent_type := "hybrid", confidence := 7/10,
      reasoning := "Query contains both document (" ++ toString s.1 ++ ") and web ("
        ++ toString s.2 ++ ") search indicators" }
  else if s.2 < s.1 then
    { intent_type := "rag_search", confidence := min (1/2 + (s.1 : ℚ) * (1/10)) (19/20),
      reasoning := "Query contains " ++ toString s.1 ++ " document search indicators" }
  else if s.1 < s.2 then
    { intent_type := "web_search", confidence := min (1/2 + (s.2 : ℚ) * (1/10)) (19/20),
      reasoning := "Query contains " ++ toString s.2 ++ " web search indicators" }
  else if 0 < codeScore then
    { intent_type := "general_chat", confidence := 7/10,
      reasoning := "Query contains " ++ toString codeScore ++ " code/calculation indicators" }
  else
    { intent_type := "general_chat", confidence := 4/5,
      reasoning := "No specific tool indicators found, treating as general conversation" }

/-- C5 (amended): a tie of equal NONZERO document/web scores is
classified `hybrid` (confidence 0.7) because the both-positive branch
fires first; only a tie at zero falls through to general conversation. -/
theorem classify_tie_nonzero_is_hybrid (query : String) (prev : List String)
    (prefs : Option String) :
    ((classifyScores query prev prefs).1 = (classifyScores query prev prefs).2 →
      (classifyScores query prev prefs).1 ≠ 0 →
      (classify query prev prefs).intent_type = "hybrid" ∧
      (classify query prev prefs).confidence = 7/10) ∧
    ((classifyScores query prev prefs).1 = 0 → (classifyScores query prev prefs).2 = 0 →
      (classify query prev prefs).intent_type = "general_chat") := by
  constructor
  · intro heq hne
    have hpos : 0 < (classifyScores query prev prefs).1 ∧
        0 < (classifyScores query prev prefs).2 := by omega
    constructor <;> simp [classify, hpos]
  · intro h1 h2
    have hnb : ¬ (0 < (classifyScores query prev prefs).1 ∧
        0 < (classifyScores query prev prefs).2) := by omega
    by_cases hc : 0 < countMatches CODE_KEYWORDS (lowerStr query) <;>
      simp [classify, hnb, h1, h2, hc]

/-- C5 witness: `"document latest"` scores 1–1 (an equal nonzero tie)
and is classified `hybrid`; `"z"` scores 0–0 and is classified
`general_chat`. -/
theorem classify_tie_nonzero_is_hybrid_witness :
    ((classifyScores "document latest" [] none).1 = (classifyScores "document latest" [] none).2 ∧
     (classifyScores "document latest" [] none).1 ≠ 0 ∧
     (classify "document latest" [] none).intent_type = "hybrid") ∧
    ((classifyScores "z" [] none).1 = 0 ∧ (classifyScores "z" [] none).2 = 0 ∧
     (classify "z" [] none).intent_type = "general_chat") :=
  ⟨⟨by decide, by decide,
      ((classify_tie_nonzero_is_hybrid "document latest" [] none).1 (by decide) (by decide)).1⟩,
   ⟨by decide, by decide,
      (classify_tie_nonzero_is_hybrid "z" [] none).2 (by decide) (by decide)⟩⟩

/-- C5 counterexample: the query `"document latest"` has equal nonzero
document and web scores (1 and 1) yet is classified `hybrid`, not
general conversation — equal nonzero scores satisfy the first decision
branch `rag_score > 0 and web_score > 0`. -/
theorem classify_tie_nonzero_counterexample :
    (classifyScores "document latest" [] none).1 = 1 ∧
    (classifyScores "document latest" [] none).2 = 1 ∧
    (classify "document latest" [] none).intent_type ≠ "general_chat" := by
  decide

/-! ## Evaluator — `backend/app/agent/evaluator.py`

Scores are Python floats over values with short decimal
representations; they are modelled exactly as rationals. -/

/-- The slice of a tool-result dict the evaluator and the loop
consume: its `tool_type` tag and `success` flag. -/
structure ToolResultR where
  tool_type : String
  success : Bool
  deriving Repr, DecidableEq

def EVAL_STOPWORDS : List String :=
  ["the", "a", "an", "is", "are", "was", "were", "what", "how", "why",
   "when", "where", "who", "do", "does", "did", "to", "in", "of", "and",
   "or", "for", "with", "on", "at", "by", "about",
   "은", "는", "이", "가", "을", "를", "의", "에", "에서", "도", "로",
   "으로", "와", "과", "하고", "이다", "입니다", "해줘", "알려줘", "뭐야"]

def ERROR_INDICATORS : List String :=
  ["error", "failed", "unable to", "cannot", "오류", "실패", "불가"]

/-- The character-length adjustment of `Evaluator.evaluate`, with the
branch order exactly as in the source (`< 2`, then `>= 10`, then
`>= 50`, else nothing). -/
def lengthAdjust (charCount : Nat) : ℚ :=
  if charCount < 2 then -(1/5)
  else if 10 ≤ charCount then 3/20
  else if 50 ≤ charCount then 1/5
  else 0

/-- `Evaluator.evaluate`. -/
def evaluate (query answer : String) (toolResults : List ToolResultR) : ℚ :=
  if stripChars answer.data = [] then 0
  else
    let answerLower := lowerStr answer
    let charCount := (stripChars answer.data).length
    let score1 : ℚ := 3/5 + lengthAdjust charCount
    let errorCount := countMatches ERROR_INDICATORS answerLower
    let score2 := score1 - (errorCount : ℚ) * (1/10)
    let queryKeywords :=
      ((pySplitWs (lowerStr query)).dedup).filter (fun w => ¬ EVAL_STOPWORDS.contains w)
    let score3 :=
      if queryKeywords ≠ [] then
        score2 + ((countMatches queryKeywords answerLower : ℚ) / (queryKeywords.length : ℚ))
          * (1/5)
      else score2
    let score4 :=
      if toolResults ≠ [] ∧ toolResults.any (·.success) ∧ 20 < charCount then
        score3 + 1/10
      else score3
    max 0 (min 1 score4)

/-- C9: the `+0.2` tier for answers of ≥ 50 characters is dead code —
since `charCount ≥ 10` is tested first, the length adjustment is
exactly `-0.2` below 2 characters, `0` for 2–9 characters and `+0.15`
from 10 characters on, and it is never `+0.2`. -/
theorem lengthAdjust_plus_point_two_unreachable (charCount : Nat) :
    lengthAdjust charCount =
      (if charCount < 2 then -(1/5) else if 10 ≤ charCount then 3/20 else 0 : ℚ) ∧
    lengthAdjust charCount ≠ 1/5 ∧
    (50 ≤ charCount → lengthAdjust charCount = 3/20) := by
  refine ⟨?_, ?_, ?_⟩
  · unfold lengthAdjust
    split_ifs with h1 h2 h3
    · rfl
    · rfl
    · omega
    · rfl
  · unfold lengthAdjust
    split_ifs with h1 h2 h3
    · norm_num
    · norm_num
    · omega
    · norm_num
  · intro h
    unfold lengthAdjust
    split_ifs with h1 h2
    · omega
    · rfl
    · omega

/-- C9 witness: a 60-character answer gets `+0.15`, not `+0.2`. -/
theorem lengthAdjust_plus_point_two_unreachable_witness :
    50 ≤ 60 ∧ lengthAdjust 60 = 3/20 :=
  ⟨by decide, (lengthAdjust_plus_point_two_unreachable 60).2.2 (by decide)⟩

/-! ## ToolExecutor — `backend/app/agent/tool_executor.py`

The three tool backends (`RAGTool.search`, `WebSearchTool.search`,
`CustomApiTool.call`) are external collaborators; a backend is
modelled as a function returning `.ok content` (the `content` field of
its result dict) or `.error e` (it raised exception text `e`).  The
whole dispatch of `execute` runs inside one `try`, so a raised
exception from any branch is caught. -/

structure ToolBackends where
  rag : String → Except String String
  webSearch : String → Except String String
  customApi : String → Except String String

/-- The fields of the result dict that all branches of
`ToolExecutor.execute` share. -/
structure ToolResultD where
  tool_type : String
  output : String
  success : Bool
  deriving Repr, DecidableEq

/-- `ToolExecutor.execute`: dispatch on `tool.tool_type` inside a
`try`; an unknown type returns a failure result, and any exception is
converted to a failure result embedding the error text. -/
def executeTool (b : ToolBackends) (toolType query : String) : ToolResultD :=
  let dispatch : Except String ToolResultD :=
    if toolType = "rag" then
      (b.rag query).map (fun content => ⟨"rag", content, true⟩)
    else if toolType = "web_search" then
      (b.webSearch query).map (fun content => ⟨"web_search", content, true⟩)
    else if toolType = "custom_api" then
      (b.customApi query).map (fun content => ⟨"custom_api", content, true⟩)
    else
      .ok ⟨toolType, "Unknown tool type: " ++ toolType, false⟩
  match dispatch with
  | .ok r => r
  | .error e => ⟨toolType, "Tool execution failed: " ++ e, false⟩

/-- C6: `execute` always returns a result (it is a total function of
the backends' behaviour, including when a backend raises): an unknown
tool type yields `success = false` with a descriptive message, and a
raising backend yields `success = false` with the error text embedded. -/
theorem executeTool_never_raises (b : ToolBackends) (toolType query : String) :
    (toolType ≠ "rag" → toolType ≠ "web_search" → toolType ≠ "custom_api" →
      executeTool b toolType query = ⟨toolType, "Unknown tool type: " ++ toolType, false⟩) ∧
    (∀ e, toolType = "rag" → b.rag query = .error e →
      executeTool b toolType query = ⟨toolType, "Tool execution failed: " ++ e, false⟩) ∧
    (∀ e, toolType = "web_search" → b.webSearch query = .error e →
      executeTool b toolType query = ⟨toolType, "Tool execution failed: " ++ e, false⟩) ∧
    (∀ e, toolType = "custom_api" → b.customApi query = .error e →
      executeTool b toolType query = ⟨toolType, "Tool execution failed: " ++ e, false⟩) := by
  refine ⟨?_, ?_, ?_, ?_⟩
  · intro h1 h2 h3
    simp [executeTool, h1, h2, h3]
  · intro e h1 h2
    subst h1
    simp [executeTool, h2, Except.map]
  · intro e h1 h2
    subst h1
    simp [executeTool, h2, Except.map]
  · intro e h1 h2
    subst h1
    simp [executeTool, h2, Except.map]

/-- C6 witness: a backend that raises `"boom"` on a `rag` invocation is
converted to a failure result, and an unknown tool type is reported. -/
theorem executeTool_never_raises_witness :
    (executeTool ⟨fun _ => .error "boom", fun _ => .ok "", fun _ => .ok ""⟩ "rag" "q" =
      ⟨"rag", "Tool execution failed: " ++ "boom", false⟩) ∧
    (executeTool ⟨fun _ => .error "boom", fun _ => .ok "", fun _ => .ok ""⟩ "magic" "q" =
      ⟨"magic", "Unknown tool type: " ++ "magic", false⟩) :=
  ⟨(executeTool_never_raises ⟨fun _ => .error "boom", fun _ => .ok "", fun _ => .ok ""⟩
      "rag" "q").2.1 "boom" (by decide) rfl,
   (executeTool_never_raises ⟨fun _ => .error "boom", fun _ => .ok "", fun _ => .ok ""⟩
      "magic" "q").1 (by decide) (by decide) (by decide)⟩

/-! ## InputGuardMiddleware — `backend/app/agent/middleware/input_guard_mw.py` -/

/-- One step of `re.sub(r"\s+", " ", s)`: `prevWs` records whether the
previous character was part of a whitespace run already replaced. -/
def collapseAux (prevWs : Bool) : Str → Str
  | [] => []
  | c :: cs =>
    if c.isWhitespace then
      if prevWs then collapseAux true cs else ' ' :: collapseAux true cs
    else c :: collapseAux false cs

/-- `query.strip()` then `re.sub(r"\s+", " ", query)`. -/
def normalizeQuery (l : Str) : Str := collapseAux false (stripChars l)

/-- Outcome of a `before_run` hook on the context: the abort flag, the
abort reason and the (possibly rewritten) `ctx.query`. -/
structure GuardOut where
  aborted : Bool
  abort_reason : String
  query : Str
  deriving Repr, DecidableEq

/-- `InputGuardMiddleware.before_run`: empty check on the raw query,
then normalisation, then the maximum-length check on the NORMALISED
query. -/
def inputGuardBeforeRun (maxLength : Nat) (query : Str) : GuardOut :=
  if stripChars query = [] then
    ⟨true, "질문을 입력해 주세요.", query⟩
  else
    let q := normalizeQuery query
    if maxLength < q.length then
      ⟨true, "입력이 너무 깁니다. 최대 " ++ commaFormat maxLength ++ "자까지 허용됩니다.", q⟩
    else
      ⟨false, "", q⟩

theorem collapseAux_ne_nil (c : Char) (cs : Str) : collapseAux false (c :: cs) ≠ [] := by
  cases hc : c.isWhitespace <;> simp [collapseAux, hc]

/-- C10: the maximum-length check runs on the normalised query, not
the raw input — any raw query whose stripped form is nonempty and
whose normalised form fits the limit is accepted; and whenever
`before_run` does not abort, the context query equals the normalised
query, is nonempty and is at most the limit in length. -/
theorem inputGuard_length_check_on_normalized (maxLength : Nat) (query : Str) :
    (stripChars query ≠ [] → (normalizeQuery query).length ≤ maxLength →
      (inputGuardBeforeRun maxLength query).aborted = false) ∧
    ((inputGuardBeforeRun maxLength query).aborted = false →
      (inputGuardBeforeRun maxLength query).query = normalizeQuery query ∧
      (inputGuardBeforeRun maxLength query).query ≠ [] ∧
      (inputGuardBeforeRun maxLength query).query.length ≤ maxLength) := by
  constructor
  · intro h1 h2
    simp only [inputGuardBeforeRun, h1, if_neg, if_false]
    have : ¬ maxLength < (normalizeQuery query).length := by omega
    simp [this]
  · intro h
    by_cases h1 : stripChars query = []
    · simp [inputGuardBeforeRun, h1] at h
    · by_cases h2 : maxLength < (normalizeQuery query).length
      · simp [inputGuardBeforeRun, h1, h2] at h
      · refine ⟨by simp [inputGuardBeforeRun, h1, h2], ?_, ?_⟩
        · simp only [inputGuardBeforeRun, h1, if_neg, if_false, h2]
          obtain ⟨c, cs, hcc⟩ : ∃ c cs, stripChars query = c :: cs := by
            cases hs : stripChars query with
            | nil => exact absurd hs h1
            | cons c cs => exact ⟨c, cs, rfl⟩
          unfold normalizeQuery
          rw [hcc]
          exact collapseAux_ne_nil c cs
        · simp only [inputGuardBeforeRun, h1, if_neg, if_false, h2]
          omega

/-- The raw query used in the C10 witness: one non-space character, a
run of 10 000 spaces, one non-space character — 10 002 characters raw,
3 after normalisation. -/
def longSpacedQuery : Str := 'a' :: (List.replicate 10000 ' ' ++ ['b'])

theorem dropWhile_ws_replicate_append (x : Char) (hx : x.isWhitespace = false) :
    ∀ n : Nat, (List.replicate n ' ' ++ [x]).dropWhile Char.isWhitespace = [x] := by
  have hsp : (' ' : Char).isWhitespace = true := by decide
  intro n
  induction n with
  | zero => simp [List.dropWhile_cons, hx]
  | succ n ih =>
    rw [List.replicate_succ, List.cons_append, List.dropWhile_cons]
    simpa [hsp] using ih

theorem stripChars_longSpacedQuery : stripChars longSpacedQuery = longSpacedQuery := by
  have ha : ('a' : Char).isWhitespace = false := by decide
  have hb : ('b' : Char).isWhitespace = false := by decide
  unfold stripChars longSpacedQuery
  rw [List.dropWhile_cons_of_neg (by simp [ha])]
  simp only [List.reverse_cons, List.reverse_append, List.reverse_replicate, List.reverse_nil,
    List.nil_append, List.cons_append]
  rw [List.dropWhile_cons_of_neg (by simp [hb])]
  simp only [List.reverse_cons, List.reverse_append, List.reverse_replicate, List.reverse_nil,
    List.nil_append, List.cons_append]

theorem collapseAux_cons_not_ws (prevWs : Bool) (c : Char) (hc : c.isWhitespace = false)
    (cs : Str) : collapseAux prevWs (c :: cs) = c :: collapseAux false cs := by
  cases prevWs <;> simp [collapseAux, hc]

theorem collapseAux_false_cons_ws (c : Char) (hc : c.isWhitespace = true) (cs : Str) :
    collapseAux false (c :: cs) = ' ' :: collapseAux true cs := by
  simp [collapseAux, hc]

theorem collapseAux_true_replicate_append (x : Char) (hx : x.isWhitespace = false) :
    ∀ n : Nat, collapseAux true (List.replicate n ' ' ++ [x]) = [x] := by
  have hsp : (' ' : Char).isWhitespace = true := by decide
  intro n
  induction n with
  | zero => simp [collapseAux, hx]
  | succ n ih =>
    rw [List.replicate_succ, List.cons_append]
    simpa [collapseAux, hsp] using ih

theorem normalizeQuery_longSpacedQuery : normalizeQuery longSpacedQuery = ['a', ' ', 'b'] := by
  have ha : ('a' : Char).isWhitespace = false := by decide
  have hb : ('b' : Char).isWhitespace = false := by decide
  have hsp : (' ' : Char).isWhitespace = true := by decide
  unfold normalizeQuery
  rw [stripChars_longSpacedQuery]
  unfold longSpacedQuery
  rw [show (10000 : Nat) = 9999 + 1 from rfl, List.replicate_succ, List.cons_append]
  rw [collapseAux_cons_not_ws false 'a' ha, collapseAux_false_cons_ws ' ' hsp,
    collapseAux_true_replicate_append 'b' hb 9999]

/-- C10 witness: the 10 002-character raw query is longer than the
10 000-character limit, yet `before_run` accepts it because its
normalised form has 3 characters. -/
theorem inputGuard_length_check_on_normalized_witness :
    10000 < longSpacedQuery.length ∧
    stripChars longSpacedQuery ≠ [] ∧
    (normalizeQuery longSpacedQuery).length ≤ 10000 ∧
    (inputGuardBeforeRun 10000 longSpacedQuery).aborted = false := by
  have h1 : stripChars longSpacedQuery ≠ [] := by
    rw [stripChars_longSpacedQuery]; unfold longSpacedQuery; exact List.cons_ne_nil _ _
  have h2 : (normalizeQuery longSpacedQuery).length ≤ 10000 := by
    rw [normalizeQuery_longSpacedQuery]; norm_num
  refine ⟨?_, h1, h2, (inputGuard_length_check_on_normalized 10000 longSpacedQuery).1 h1 h2⟩
  have hlen : longSpacedQuery.length = 10002 := by
    simp only [longSpacedQuery, List.length_cons, List.length_append, List.length_replicate,
      List.length_nil]
  omega

/-! ## TokenLimitMiddleware — `backend/app/agent/middleware/token_limit_mw.py`

A fetched active limit row carries its period type and caps
(`max_tokens` / `max_api_calls`, with `0` standing for a NULL/zero cap,
both falsy in the Python truthiness check).  The usage-log aggregation
depends only on the lookback window, which is derived from the period
type, so it is modelled as a function from the period type to
`(summed total_tokens, api call count)`. -/

structure TokenLimitRow where
  limit_type : String
  max_tokens : Nat
  max_api_calls : Nat
  deriving Repr, DecidableEq

/-- `TokenLimitMiddleware._period_label`. -/
def periodLabel (t : String) : String :=
  if t = "per_minute" then "분당"
  else if t = "per_hour" then "시간당"
  else if t = "per_day" then "일일"
  else if t = "daily" then "일일"
  else if t = "monthly" then "월간"
  else if t = "total" then "전체"
  else t

/-- `TokenLimitMiddleware.before_run`, restricted to its decision
logic: walk the fetched limits in order; at the first breached cap,
abort with the formatted reason (`some reason` models
`ctx.aborted = True` with `ctx.abort_reason = reason`); if no cap is
breached return `none` (the run proceeds). -/
def tokenLimitBeforeRun (usage : String → Nat × Nat) : List TokenLimitRow → Option String
  | [] => none
  | limit :: rest =>
    let used := usage limit.limit_type
    if limit.max_tokens ≠ 0 ∧ limit.max_tokens ≤ used.1 then
      some (periodLabel limit.limit_type ++ " 토큰 사용량을 초과했습니다. (사용: "
        ++ commaFormat used.1 ++ " / 제한: " ++ commaFormat limit.max_tokens ++ ")")
    else if limit.max_api_calls ≠ 0 ∧ limit.max_api_calls ≤ used.2 then
      some (periodLabel limit.limit_type ++ " API 호출 횟수를 초과했습니다. (호출: "
        ++ commaFormat used.2 ++ " / 제한: " ++ commaFormat limit.max_api_calls ++ ")")
    else tokenLimitBeforeRun usage rest

/-- C7: with an active daily limit of `max_tokens = 1000` and summed
usage of exactly 1000 tokens in the window, `before_run` aborts (the
check is `>=`, so it fires at exactly the limit) and the reason
contains the formatted number `"1,000"` twice (used and limit). -/
theorem tokenLimit_abort_at_exact_cap (usage : String → Nat × Nat)
    (h : (usage "daily").1 = 1000) :
    tokenLimitBeforeRun usage [⟨"daily", 1000, 0⟩] =
      some "일일 토큰 사용량을 초과했습니다. (사용: 1,000 / 제한: 1,000)" ∧
    countSubstr "1,000".data
      "일일 토큰 사용량을 초과했습니다. (사용: 1,000 / 제한: 1,000)".data = 2 := by
  constructor
  · rcases hu : usage "daily" with ⟨t, c⟩
    rw [hu] at h
    simp only at h
    subst h
    simp only [tokenLimitBeforeRun, hu]
    rw [if_pos (by omega)]
    decide
  · decide

/-- C7 witness: a concrete usage function summing to exactly 1000
tokens in the daily window. -/
theorem tokenLimit_abort_at_exact_cap_witness :
    ((fun _ : String => ((1000 : Nat), (0 : Nat))) "daily").1 = 1000 ∧
    tokenLimitBeforeRun (fun _ => (1000, 0)) [⟨"daily", 1000, 0⟩] =
      some "일일 토큰 사용량을 초과했습니다. (사용: 1,000 / 제한: 1,000)" :=
  ⟨rfl, (tokenLimit_abort_at_exact_cap (fun _ => (1000, 0)) rfl).1⟩

/-! ## VectorStore.similarity_search — `backend/app/rag/vectorstore.py`

The SQL query over `snap_vec_ebd` is embedded relationally: the table
is a list of rows, and the cosine similarity
`1 - (embedding <=> query_embedding)` is abstracted as a function
`sim : embedding → query → ℚ` (the claims depend only on how the query
filters, orders, truncates and reports it, not on its numeric value).
`ORDER BY embedding <=> q` ascending is exactly descending `sim`;
the `LIMIT`/`WHERE` clauses and the Python-side `round(_, 4)` are
modelled directly. -/

structure VecRow where
  rid : Nat
  agent_id : Nat
  file_id : Nat
  content : String
  chunk_index : Nat
  use_yn : Bool
  embedding : List ℚ
  deriving Repr, DecidableEq

/-- One entry of the result list of `similarity_search`. -/
structure SearchHit where
  rid : Nat
  content : String
  chunk_index : Nat
  file_id : Nat
  similarity : ℚ
  deriving Repr, DecidableEq

/-- Python `round(x, 4)` (ties modelled by `round`). -/
def round4 (x : ℚ) : ℚ := (round (x * 10000) : ℚ) / 10000

/-- The `WHERE` clause: the row is in the requested agent's partition,
not soft-deleted (`use_yn = 'Y'`), and at least as similar as the
threshold (inclusive `>=`). -/
def passesFilter (sim : List ℚ → List ℚ → ℚ) (agentId : Nat) (qe : List ℚ) (threshold : ℚ)
    (r : VecRow) : Bool :=
  r.agent_id == agentId && r.use_yn && decide (threshold ≤ sim r.embedding qe)

/-- Descending-similarity order used by `ORDER BY embedding <=> q`. -/
def simOrder (sim : List ℚ → List ℚ → ℚ) (qe : List ℚ) (a b : VecRow) : Prop :=
  sim b.embedding qe ≤ sim a.embedding qe

instance (sim : List ℚ → List ℚ → ℚ) (qe : List ℚ) : DecidableRel (simOrder sim qe) :=
  fun _ _ => inferInstanceAs (Decidable (_ ≤ _))

instance (sim : List ℚ → List ℚ → ℚ) (qe : List ℚ) : IsTotal VecRow (simOrder sim qe) :=
  ⟨fun _ _ => le_total _ _⟩

instance (sim : List ℚ → List ℚ → ℚ) (qe : List ℚ) : IsTrans VecRow (simOrder sim qe) :=
  ⟨fun _ _ _ h1 h2 => le_trans h2 h1⟩

/-- The rows the SQL statement returns: filter, order by descending
similarity, truncate to `top_k`. -/
def similaritySearchRows (sim : List ℚ → List ℚ → ℚ) (table : List VecRow) (agentId : Nat)
    (qe : List ℚ) (topK : Nat) (threshold : ℚ) : List VecRow :=
  (List.insertionSort (simOrder sim qe)
      (table.filter (passesFilter sim agentId qe threshold))).take topK

/-- `VectorStore.similarity_search`: the returned dicts, with the
similarity rounded to 4 decimal digits. -/
def similaritySearch (sim : List ℚ → List ℚ → ℚ) (table : List VecRow) (agentId : Nat)
    (qe : List ℚ) (topK : Nat) (threshold : ℚ) : List SearchHit :=
  (similaritySearchRows sim table agentId qe topK threshold).map
    (fun r => ⟨r.rid, r.content, r.chunk_index, r.file_id, round4 (sim r.embedding qe)⟩)

theorem round_mono_rat {x y : ℚ} (h : x ≤ y) : round x ≤ round y := by
  rw [round_eq, round_eq]
  exact Int.floor_le_floor (by linarith)

theorem round4_mono {x y : ℚ} (h : x ≤ y) : round4 x ≤ round4 y := by
  unfold round4
  have : round (x * 10000) ≤ round (y * 10000) := round_mono_rat (by nlinarith)
  have hc : ((round (x * 10000) : ℤ) : ℚ) ≤ ((round (y * 10000) : ℤ) : ℚ) := by
    exact_mod_cast this
  exact div_le_div_of_nonneg_right hc (by norm_num) |>.trans_eq rfl

/-- C3: every record returned by `similarity_search` comes from the
requested agent's partition, is not soft-deleted and meets the
inclusive similarity threshold; its reported similarity is the rounded
true similarity; the list has at most `top_k` entries and is ordered by
descending similarity; and a row whose similarity equals the threshold
passes the `WHERE` filter (the comparison is `>=`, not `>`). -/
theorem similaritySearch_contract (sim : List ℚ → List ℚ → ℚ) (table : List VecRow)
    (agentId : Nat) (qe : List ℚ) (topK : Nat) (threshold : ℚ) :
    (similaritySearch sim table agentId qe topK threshold).length ≤ topK ∧
    (∀ h ∈ similaritySearch sim table agentId qe topK threshold, ∃ r ∈ table,
      r.agent_id = agentId ∧ r.use_yn = true ∧ threshold ≤ sim r.embedding qe ∧
      h = ⟨r.rid, r.content, r.chunk_index, r.file_id, round4 (sim r.embedding qe)⟩) ∧
    ((similaritySearch sim table agentId qe topK threshold).map SearchHit.similarity).Pairwise
      (fun a b => b ≤ a) ∧
    (∀ r ∈ table, r.agent_id = agentId → r.use_yn = true → sim r.embedding qe = threshold →
      r ∈ table.filter (passesFilter sim agentId qe threshold)) := by
  refine ⟨?_, ?_, ?_, ?_⟩
  · calc (similaritySearch sim table agentId qe topK threshold).length
        = (similaritySearchRows sim table agentId qe topK threshold).length :=
          List.length_map _ _
      _ ≤ topK := List.length_take_le _ _
  · intro h hmem
    obtain ⟨r, hr, rfl⟩ := List.mem_map.mp hmem
    have hr2 : r ∈ List.insertionSort (simOrder sim qe)
        (table.filter (passesFilter sim agentId qe threshold)) :=
      List.mem_of_mem_take hr
    have hr3 : r ∈ table.filter (passesFilter sim agentId qe threshold) :=
      (List.perm_insertionSort (simOrder sim qe) _).mem_iff.mp hr2
    have hr4 := List.mem_filter.mp hr3
    refine ⟨r, hr4.1, ?_, ?_, ?_, rfl⟩
    · have := hr4.2
      simp only [passesFilter, Bool.and_eq_true, beq_iff_eq, decide_eq_true_eq] at this
      exact this.1.1
    · have := hr4.2
      simp only [passesFilter, Bool.and_eq_true, beq_iff_eq, decide_eq_true_eq] at this
      exact this.1.2
    · have := hr4.2
      simp only [passesFilter, Bool.and_eq_true, beq_iff_eq, decide_eq_true_eq] at this
      exact this.2
  · have hsorted : (List.insertionSort (simOrder sim qe)
        (table.filter (passesFilter sim agentId qe threshold))).Sorted (simOrder sim qe) :=
      List.sorted_insertionSort (simOrder sim qe) _
    have htake : (similaritySearchRows sim table agentId qe topK threshold).Sorted
        (simOrder sim qe) :=
      hsorted.sublist (List.take_sublist _ _)
    unfold similaritySearch
    rw [List.map_map]
    refine List.Pairwise.map _ ?_ htake
    intro a b hab
    exact round4_mono hab
  · intro r hrt h1 h2 h3
    refine List.mem_filter.mpr ⟨hrt, ?_⟩
    simp only [passesFilter, Bool.and_eq_true, beq_iff_eq, decide_eq_true_eq]
    exact ⟨⟨h1, h2⟩, le_of_eq h3.symm⟩

/-- Constant similarity used only by the C3 witness. -/
def c3Sim : List ℚ → List ℚ → ℚ := fun _ _ => 1

/-- The single stored row used only by the C3 witness. -/
def c3Row : VecRow := ⟨1, 1, 5, "keep", 0, true, [1]⟩

/-- C3 witness: a one-row table at similarity exactly equal to the
threshold; the row is returned (rounded) and passes the inclusive
filter. -/
theorem similaritySearch_contract_witness :
    ((⟨1, "keep", 0, 5, round4 1⟩ : SearchHit) ∈ similaritySearch c3Sim [c3Row] 1 [0] 5 1) ∧
    (∃ r ∈ [c3Row], r.agent_id = 1 ∧ r.use_yn = true ∧ (1 : ℚ) ≤ c3Sim r.embedding [0] ∧
      (⟨1, "keep", 0, 5, round4 1⟩ : SearchHit) =
        ⟨r.rid, r.content, r.chunk_index, r.file_id, round4 (c3Sim r.embedding [0])⟩) ∧
    c3Row ∈ [c3Row].filter (passesFilter c3Sim 1 [0] 1) := by
  have hrows : similaritySearchRows c3Sim [c3Row] 1 [0] 5 1 = [c3Row] := by
    unfold similaritySearchRows
    have hf : List.filter (passesFilter c3Sim 1 [0] 1) [c3Row] = [c3Row] := by
      simp [passesFilter, c3Sim, c3Row]
    rw [hf]
    simp [List.insertionSort, List.orderedInsert]
  have hmem : (⟨1, "keep", 0, 5, round4 1⟩ : SearchHit) ∈
      similaritySearch c3Sim [c3Row] 1 [0] 5 1 := by
    unfold similaritySearch
    rw [hrows]
    simp [c3Row, c3Sim]
  exact ⟨hmem,
    (similaritySearch_contract c3Sim [c3Row] 1 [0] 5 1).2.1 _ hmem,
    (similaritySearch_contract c3Sim [c3Row] 1 [0] 5 1).2.2.2 c3Row (by simp) rfl rfl rfl⟩

/-! ## ReActAgent.run_stream — `backend/app/agent/react_agent.py`

The streaming loop is embedded as a function from the run environment
to the emitted event list.  External effects are oracles:

* `beforeRun` — the middleware chain's `before_run` outcome
  (`.error reason` models `ctx.aborted` with `ctx.abort_reason`,
  `.ok q` the possibly-sanitised `ctx.query`);
* `getTools` — `get_enabled_tools` (a DB call, so it may raise);
* `beforeToolAbort i j` — whether `ctx.aborted` holds at the
  `before_tool` check of the `j`-th dispatched tool of iteration `i`
  (middleware hook exceptions are caught by `MiddlewareChain`, so
  hooks are modelled as non-raising);
* `execTool` — `ToolExecutor.execute`, which never raises (C6);
* `llm` — `_stream_llm`: `.ok tokens` is the streamed token list
  (its internal failures are already surfaced in-band as error-text
  tokens), `.error e` an exception escaping it before streaming (the
  model-resolution DB query sits outside its `try`);
* `trackErr` — an exception from `token_tracker.track`.

The intent classifier and the evaluator are the pure embedded
functions `classify` and `evaluate` from this file, exactly as the
loop calls them.  An uncaught exception anywhere in the iteration body
is caught by the loop's single `try`, emitting one `error` event.

The result's second component is a ghost trace: the `query` argument
passed to the intent classifier at each iteration (the loop's current
query, rewritten between iterations at react_agent.py:281). -/

inductive AgentEvent where
  | thinking (iteration : Nat)
  | tool_start (tool : String) (iteration : Nat)
  | tool_result (tool : String) (iteration : Nat)
  | answer_token (token : String)
  | evaluation (score : ℚ) (passed : Bool) (iteration : Nat)
  | answer_end (iterations : Nat)
  | error (msg : String)
  deriving Repr, DecidableEq

structure RunEnv where
  beforeRun : String → Except String String
  getTools : Nat → Except String (List String)
  beforeToolAbort : Nat → Nat → Option String
  execTool : Nat → Nat → String → ToolResultR
  beforeLlmAbort : Nat → Option String
  llm : Nat → Except String (List String)
  trackErr : Nat → Option String

/-- The re-query rewrite at react_agent.py:281 (an f-string around the
loop's current `query` variable). -/
def rewriteQuery (q : String) : String :=
  "Please provide a more detailed answer. Original question: " ++ q

/-- `ReActAgent._should_use_tool`. -/
def shouldUseTool (intentType toolType : String) : Bool :=
  if intentType = "rag_search" then toolType == "rag"
  else if intentType = "web_search" then toolType == "web_search"
  else if intentType = "hybrid" then toolType == "rag" || toolType == "web_search"
  else false

/-- The `for tool in tools` body: `before_tool` abort check (aborting
ends the whole run with one error event), `tool_start`, execution,
result accumulation, `tool_result`.  `.error evts` means the run
returns after `evts`; `.ok (evts, acc)` continues with accumulated
results. -/
def toolLoop (env : RunEnv) (iter : Nat) (query : String) :
    Nat → List String → List ToolResultR →
      Except (List AgentEvent) (List AgentEvent × List ToolResultR)
  | _, [], acc => .ok ([], acc)
  | idx, t :: ts, acc =>
    match env.beforeToolAbort iter idx with
    | some r => .error [AgentEvent.error r]
    | none =>
      let output := env.execTool iter idx query
      match toolLoop env iter query (idx + 1) ts (acc ++ [output]) with
      | .error evts =>
        .error (AgentEvent.tool_start t iter :: AgentEvent.tool_result t iter :: evts)
      | .ok (evts, acc2) =>
        .ok (AgentEvent.tool_start t iter :: AgentEvent.tool_result t iter :: evts, acc2)

/-- The tool phase of one loop iteration (`Step 2`): skipped entirely
for general conversation, otherwise fetch the enabled tools and run
the permitted ones. -/
def toolPhase (env : RunEnv) (iteration : Nat) (query : String)
    (toolResults : List ToolResultR) :
    Except (List AgentEvent) (List AgentEvent × List ToolResultR) :=
  let intent := classify query (toolResults.map (·.tool_type)) none
  if intent.intent_type ≠ "general_chat" then
    match env.getTools iteration with
    | .error e => .error [AgentEvent.error e]
    | .ok tools =>
      toolLoop env iteration query 0
        (tools.filter (fun t => shouldUseTool intent.intent_type t)) toolResults
  else .ok ([], toolResults)

/-- The `while iteration < max_iterations` body.  `fuel` is the number
of loop iterations still permitted (`max_iterations - iteration + 1`
when entered with the 1-based iteration number of the current pass),
so `runStream` instantiates `fuel := maxIter`, `iteration := 1`. -/
def reactLoop (env : RunEnv) (threshold : ℚ) (maxIter : Nat) :
    Nat → Nat → String → List ToolResultR → List AgentEvent × List String
  | 0, _, _, _ => ([], [])
  | fuel + 1, iteration, query, toolResults =>
    match toolPhase env iteration query toolResults with
    | .error evts => (AgentEvent.thinking iteration :: evts, [query])
    | .ok (toolEvts, toolResults2) =>
      match env.beforeLlmAbort iteration with
      | some r =>
        (AgentEvent.thinking iteration :: toolEvts ++ [AgentEvent.error r], [query])
      | none =>
        match env.llm iteration with
        | .error e =>
          (AgentEvent.thinking iteration :: toolEvts ++ [AgentEvent.error e], [query])
        | .ok tokens =>
          let toks := tokens.filter (fun t => t ≠ "")
          let tokenEvts := toks.map AgentEvent.answer_token
          let fullResponse := String.join toks
          let score := evaluate query fullResponse toolResults2
          let passed : Bool := decide (threshold ≤ score)
          let evalEvt := AgentEvent.evaluation score passed iteration
          if passed ∨ maxIter ≤ iteration then
            match env.trackErr iteration with
            | some e =>
              (AgentEvent.thinking iteration :: toolEvts ++ tokenEvts
                ++ [evalEvt, AgentEvent.error e], [query])
            | none =>
              (AgentEvent.thinking iteration :: toolEvts ++ tokenEvts
                ++ [evalEvt, AgentEvent.answer_end iteration], [query])
          else
            let rest := reactLoop env threshold maxIter fuel (iteration + 1)
              (rewriteQuery query) toolResults2
            (AgentEvent.thinking iteration :: toolEvts ++ tokenEvts ++ evalEvt :: rest.1,
              query :: rest.2)

/-- `ReActAgent.run_stream`: `before_run`, abort check, then the loop. -/
def runStream (env : RunEnv) (threshold : ℚ) (maxIter : Nat) (query0 : String) :
    List AgentEvent × List String :=
  match env.beforeRun query0 with
  | .error reason => ([AgentEvent.error reason], [])
  | .ok q => reactLoop env threshold maxIter maxIter 1 q []

def isEvaluationEvt : AgentEvent → Bool
  | .evaluation _ _ _ => true
  | _ => false

def isAnswerEndEvt : AgentEvent → Bool
  | .answer_end _ => true
  | _ => false

def isErrorEvt : AgentEvent → Bool
  | .error _ => true
  | _ => false

/-! ### ReAct loop lemmas -/

theorem countP_map_eq_zero (p : AgentEvent → Bool) (f : String → AgentEvent)
    (hf : ∀ s, p (f s) = false) (l : List String) : (l.map f).countP p = 0 := by
  induction l with
  | nil => rfl
  | cons a l ih => simp [List.countP_cons, hf, ih]

theorem toolLoop_countP (env : RunEnv) (iter : Nat) (query : String) (p : AgentEvent → Bool)
    (hts : ∀ t i, p (AgentEvent.tool_start t i) = false)
    (htr : ∀ t i, p (AgentEvent.tool_result t i) = false)
    (b : Bool) (herr : ∀ r, p (AgentEvent.error r) = b) :
    ∀ (ts : List String) (idx : Nat) (acc : List ToolResultR),
      (∀ evts, toolLoop env iter query idx ts acc = .error evts →
        evts.countP p = if b then 1 else 0) ∧
      (∀ evts acc2, toolLoop env iter query idx ts acc = .ok (evts, acc2) →
        evts.countP p = 0) := by
  intro ts
  induction ts with
  | nil =>
    intro idx acc
    constructor
    · intro evts h
      simp [toolLoop] at h
    · intro evts acc2 h
      simp only [toolLoop, Except.ok.injEq, Prod.mk.injEq] at h
      rw [← h.1]
      rfl
  | cons t ts ih =>
    intro idx acc
    cases hb : env.beforeToolAbort iter idx with
    | some r =>
      constructor
      · intro evts h
        simp only [toolLoop, hb, Except.error.injEq] at h
        rw [← h]
        simp [List.countP_cons, herr]
      · intro evts acc2 h
        simp [toolLoop, hb] at h
    | none =>
      cases hrec : toolLoop env iter query (idx + 1) ts (acc ++ [env.execTool iter idx query]) with
      | error evts2 =>
        constructor
        · intro evts h
          simp only [toolLoop, hb, hrec, Except.error.injEq] at h
          rw [← h]
          simp only [List.countP_cons, hts, htr]
          have := (ih (idx + 1) (acc ++ [env.execTool iter idx query])).1 evts2 hrec
          simp [this]
        · intro evts acc2 h
          simp [toolLoop, hb, hrec] at h
      | ok pr =>
        constructor
        · intro evts h
          simp [toolLoop, hb, hrec] at h
        · intro evts acc2 h
          simp only [toolLoop, hb, hrec, Except.ok.injEq, Prod.mk.injEq] at h
          rw [← h.1]
          simp only [List.countP_cons, hts, htr]
          have := (ih (idx + 1) (acc ++ [env.execTool iter idx query])).2 pr.1 pr.2 (by rw [hrec])
          simp [this]

theorem toolPhase_countP (env : RunEnv) (iter : Nat) (query : String)
    (toolResults : List ToolResultR) (p : AgentEvent → Bool)
    (hts : ∀ t i, p (AgentEvent.tool_start t i) = false)
    (htr : ∀ t i, p (AgentEvent.tool_result t i) = false)
    (b : Bool) (herr : ∀ r, p (AgentEvent.error r) = b) :
    (∀ evts, toolPhase env iter query toolResults = .error evts →
      evts.countP p = if b then 1 else 0) ∧
    (∀ evts acc2, toolPhase env iter query toolResults = .ok (evts, acc2) →
      evts.countP p = 0) := by
  unfold toolPhase
  by_cases hi : (classify query (toolResults.map (·.tool_type)) none).intent_type = "general_chat"
  · simp only [hi, ne_eq, not_true_eq_false, if_false]
    constructor
    · intro evts h
      simp at h
    · intro evts acc2 h
      simp only [Except.ok.injEq, Prod.mk.injEq] at h
      rw [← h.1]
      rfl
  · simp only [ne_eq, hi, not_false_iff, if_true]
    cases hg : env.getTools iter with
    | error e =>
      constructor
      · intro evts h
        simp only [Except.error.injEq] at h
        rw [← h]
        simp [List.countP_cons, herr]
      · intro evts acc2 h
        simp at h
    | ok tools =>
      exact toolLoop_countP env iter query p hts htr b herr _ 0 toolResults

theorem reactLoop_counts (env : RunEnv) (threshold : ℚ) (maxIter : Nat) :
    ∀ (fuel iteration : Nat) (query : String) (tr : List ToolResultR),
      (reactLoop env threshold maxIter fuel iteration query tr).1.countP isEvaluationEvt ≤ fuel ∧
      (1 ≤ fuel → maxIter + 1 = fuel + iteration →
        (reactLoop env threshold maxIter fuel iteration query tr).1.countP isAnswerEndEvt +
          (reactLoop env threshold maxIter fuel iteration query tr).1.countP isErrorEvt = 1) := by
  intro fuel
  induction fuel with
  | zero =>
    intro iteration query tr
    constructor
    · simp [reactLoop]
    · intro h
      omega
  | succ fuel ih =>
    intro iteration query tr
    rcases htp : toolPhase env iteration query tr with evts | ⟨toolEvts, tr2⟩
    · have hEv := (toolPhase_countP env iteration query tr isEvaluationEvt
        (fun _ _ => rfl) (fun _ _ => rfl) false (fun _ => rfl)).1 evts htp
      have hAE := (toolPhase_countP env iteration query tr isAnswerEndEvt
        (fun _ _ => rfl) (fun _ _ => rfl) false (fun _ => rfl)).1 evts htp
      have hE := (toolPhase_countP env iteration query tr isErrorEvt
        (fun _ _ => rfl) (fun _ _ => rfl) true (fun _ => rfl)).1 evts htp
      constructor
      · simp [reactLoop, htp, List.countP_cons, isEvaluationEvt, hEv]
      · intro h1 h2
        simp [reactLoop, htp, List.countP_cons, isAnswerEndEvt, isErrorEvt, hAE, hE]
    · have hEv := (toolPhase_countP env iteration query tr isEvaluationEvt
        (fun _ _ => rfl) (fun _ _ => rfl) false (fun _ => rfl)).2 toolEvts tr2 htp
      have hAE := (toolPhase_countP env iteration query tr isAnswerEndEvt
        (fun _ _ => rfl) (fun _ _ => rfl) false (fun _ => rfl)).2 toolEvts tr2 htp
      have hE := (toolPhase_countP env iteration query tr isErrorEvt
        (fun _ _ => rfl) (fun _ _ => rfl) true (fun _ => rfl)).2 toolEvts tr2 htp
      have htokEv := fun (toks : List String) => countP_map_eq_zero isEvaluationEvt
        AgentEvent.answer_token (fun _ => rfl) toks
      have htokAE := fun (toks : List String) => countP_map_eq_zero isAnswerEndEvt
        AgentEvent.answer_token (fun _ => rfl) toks
      have htokE := fun (toks : List String) => countP_map_eq_zero isErrorEvt
        AgentEvent.answer_token (fun _ => rfl) toks
      cases hbl : env.beforeLlmAbort iteration with
      | some r =>
        constructor
        · simp [reactLoop, htp, hbl, List.countP_cons, List.countP_append,
            isEvaluationEvt, hEv]
        · intro h1 h2
          simp [reactLoop, htp, hbl, List.countP_cons, List.countP_append,
            isAnswerEndEvt, isErrorEvt, hAE, hE]
      | none =>
        cases hllm : env.llm iteration with
        | error e =>
          constructor
          · simp [reactLoop, htp, hbl, hllm, List.countP_cons, List.countP_append,
              isEvaluationEvt, hEv]
          · intro h1 h2
            simp [reactLoop, htp, hbl, hllm, List.countP_cons, List.countP_append,
              isAnswerEndEvt, isErrorEvt, hAE, hE]
        | ok tokens =>
          cases htc : env.trackErr iteration with
          | some e =>
            constructor
            · simp only [reactLoop, htp, hbl, hllm, htc]
              split
              · simp [List.countP_cons, List.countP_append, isEvaluationEvt, hEv, htokEv]
              · obtain ⟨ihEv, _⟩ := ih (iteration + 1) (rewriteQuery query) tr2
                simp [List.countP_cons, List.countP_append, isEvaluationEvt, hEv, htokEv]
                omega
            · intro h1 h2
              simp only [reactLoop, htp, hbl, hllm, htc]
              split
              · simp [List.countP_cons, List.countP_append, isAnswerEndEvt, isErrorEvt,
                  hAE, hE, htokAE, htokE]
              · rename_i hcond
                obtain ⟨_, ihTerm⟩ := ih (iteration + 1) (rewriteQuery query) tr2
                have hlt : ¬ maxIter ≤ iteration := by
                  intro hc
                  exact hcond (Or.inr hc)
                have hrest := ihTerm (by omega) (by omega)
                simp [List.countP_cons, List.countP_append, isAnswerEndEvt, isErrorEvt,
                  hAE, hE, htokAE, htokE]
                omega
          | none =>
            constructor
            · simp only [reactLoop, htp, hbl, hllm, htc]
              split
              · simp [List.countP_cons, List.countP_append, isEvaluationEvt, hEv, htokEv]
              · obtain ⟨ihEv, _⟩ := ih (iteration + 1) (rewriteQuery query) tr2
                simp [List.countP_cons, List.countP_append, isEvaluationEvt, hEv, htokEv]
                omega
            · intro h1 h2
              simp only [reactLoop, htp, hbl, hllm, htc]
              split
              · simp [List.countP_cons, List.countP_append, isAnswerEndEvt, isErrorEvt,
                  hAE, hE, htokAE, htokE]
              · rename_i hcond
                obtain ⟨_, ihTerm⟩ := ih (iteration + 1) (rewriteQuery query) tr2
                have hlt : ¬ maxIter ≤ iteration := by
                  intro hc
                  exact hcond (Or.inr hc)
                have hrest := ihTerm (by omega) (by omega)
                simp [List.countP_cons, List.countP_append, isAnswerEndEvt, isErrorEvt,
                  hAE, hE, htokAE, htokE]
                omega

/-- C2: for every environment and query, a streaming run emits at most
`max_iterations` evaluation events and exactly one terminal event —
one `answer_end` and no `error`, or one `error` and no `answer_end`. -/
theorem runStream_terminal_events (env : RunEnv) (threshold : ℚ) (maxIter : Nat)
    (query0 : String) (h : 1 ≤ maxIter) :
    (runStream env threshold maxIter query0).1.countP isEvaluationEvt ≤ maxIter ∧
    (((runStream env threshold maxIter query0).1.countP isAnswerEndEvt = 1 ∧
        (runStream env threshold maxIter query0).1.countP isErrorEvt = 0) ∨
      ((runStream env threshold maxIter query0).1.countP isErrorEvt = 1 ∧
        (runStream env threshold maxIter query0).1.countP isAnswerEndEvt = 0)) := by
  cases hbr : env.beforeRun query0 with
  | error r =>
    constructor
    · simp [runStream, hbr, List.countP_cons, isEvaluationEvt]
    · right
      constructor <;> simp [runStream, hbr, List.countP_cons, isErrorEvt, isAnswerEndEvt]
  | ok q =>
    have h1 := (reactLoop_counts env threshold maxIter maxIter 1 q []).1
    have h2 := (reactLoop_counts env threshold maxIter maxIter 1 q []).2 h (by omega)
    constructor
    · simpa [runStream, hbr] using h1
    · simp only [runStream, hbr]
      omega

/-- A trivial concrete environment: nothing aborts or raises, no tools
are enabled and the LLM streams no tokens. -/
def constEnv : RunEnv where
  beforeRun := fun q => .ok q
  getTools := fun _ => .ok []
  beforeToolAbort := fun _ _ => none
  execTool := fun _ _ _ => ⟨"rag", true⟩
  beforeLlmAbort := fun _ => none
  llm := fun _ => .ok []
  trackErr := fun _ => none

/-- C2 witness: the trivial environment at `max_iterations = 1`. -/
theorem runStream_terminal_events_witness :
    1 ≤ 1 ∧
    ((runStream constEnv 1 1 "hi").1.countP isEvaluationEvt ≤ 1 ∧
      (((runStream constEnv 1 1 "hi").1.countP isAnswerEndEvt = 1 ∧
          (runStream constEnv 1 1 "hi").1.countP isErrorEvt = 0) ∨
        ((runStream constEnv 1 1 "hi").1.countP isErrorEvt = 1 ∧
          (runStream constEnv 1 1 "hi").1.countP isAnswerEndEvt = 0))) :=
  ⟨Nat.le_refl 1, runStream_terminal_events constEnv 1 1 "hi" (Nat.le_refl 1)⟩

/-! ### C1 — the re-query rewrite -/

theorem evaluate_empty_answer (q : String) (tr : List ToolResultR) :
    evaluate q "" tr = 0 := rfl

theorem toolPhase_no_tools (env : RunEnv) (iteration : Nat) (query : String)
    (tr : List ToolResultR) (hg : env.getTools iteration = .ok []) :
    toolPhase env iteration query tr = .ok ([], tr) := by
  unfold toolPhase
  by_cases hi : (classify query (tr.map (·.tool_type)) none).intent_type = "general_chat"
  · simp [hi]
  · simp [hi, hg, toolLoop]

/-- C1 (amended): the next iteration's query is produced by wrapping
the CURRENT iteration's query in the template (react_agent.py:281
interpolates the mutated `query` variable), so in a run where no
middleware aborts, nothing raises, no tools run and every evaluation
fails, the query given to the classifier at iteration `k + 1` is the
template applied `k` times to the (sanitised) original query — the
rewrite compounds instead of staying anchored to the original. -/
theorem reactLoop_query_trace (env : RunEnv) (threshold : ℚ) (maxIter : Nat)
    (hg : ∀ i, env.getTools i = .ok [])
    (hl : ∀ i, env.beforeLlmAbort i = none)
    (hm : ∀ i, env.llm i = .ok [])
    (ht : ∀ i, env.trackErr i = none)
    (hth : 0 < threshold) :
    ∀ (fuel iteration : Nat) (query : String) (tr : List ToolResultR),
      maxIter + 1 = fuel + iteration →
      (reactLoop env threshold maxIter fuel iteration query tr).2 =
        (List.range fuel).map (fun k => rewriteQuery^[k] query) := by
  intro fuel
  induction fuel with
  | zero =>
    intro iteration query tr hlink
    simp [reactLoop]
  | succ fuel ih =>
    intro iteration query tr hlink
    have hpassed : decide (threshold ≤ evaluate query
        (String.join (List.filter (fun t => t ≠ "") [])) tr) = false := by
      rw [show String.join (List.filter (fun t => t ≠ "") []) = "" from rfl]
      rw [evaluate_empty_answer]
      exact decide_eq_false (not_le.mpr hth)
    by_cases hend : maxIter ≤ iteration
    · have hfuel : fuel = 0 := by omega
      subst hfuel
      simp only [reactLoop, toolPhase_no_tools env iteration query tr (hg iteration),
        hl iteration, hm iteration, ht iteration, hpassed]
      simp [hend, List.range_succ]
    · simp only [reactLoop, toolPhase_no_tools env iteration query tr (hg iteration),
        hl iteration, hm iteration, ht iteration, hpassed]
      rw [if_neg (by simp [hend])]
      have ihres := ih (iteration + 1) (rewriteQuery query) tr (by omega)
      simp only [ihres]
      rw [List.range_succ_eq_map, List.map_cons, List.map_map]
      refine congrArg₂ (· :: ·) (Function.iterate_zero_apply rewriteQuery query).symm ?_
      exact List.map_congr_left fun a _ => by
        simp [Function.comp, Function.iterate_succ_apply]

/-- C1 witness: concretely, with three iterations the classifier
receives the original, the once-wrapped and the twice-wrapped query. -/
theorem reactLoop_query_trace_witness :
    ((∀ i, constEnv.getTools i = Except.ok []) ∧ (0 : ℚ) < 1) ∧
    (runStream constEnv 1 3 "hi").2 =
      (List.range 3).map (fun k => rewriteQuery^[k] "hi") :=
  ⟨⟨fun _ => rfl, one_pos⟩, by
    have := reactLoop_query_trace constEnv 1 3 (fun _ => rfl) (fun _ => rfl) (fun _ => rfl)
      (fun _ => rfl) one_pos 3 1 "hi" [] rfl
    simpa [runStream] using this⟩

/-- C1 counterexample: in a run of the loop reaching iteration 3, the
query used there is the template applied to the iteration-2 rewritten
query, which is NOT the single wrap of the original — the template
compounds instead of staying anchored to the original query. -/
theorem rewrite_compounds_counterexample :
    (runStream constEnv 1 3 "hi").2.get? 1 = some (rewriteQuery "hi") ∧
    (runStream constEnv 1 3 "hi").2.get? 2 = some (rewriteQuery (rewriteQuery "hi")) ∧
    rewriteQuery (rewriteQuery "hi") ≠ rewriteQuery "hi" := by
  decide

end SnapAgent
